import Mathlib

/-!
Verification of the Feetech serial-servo protocol layer (`SCS.cpp` /
`SCS.h` / `INST.h` of SCServo_Linux) against its natural-language
specification.

The C++ protocol layer is shallowly embedded: every `u8` machine integer
is a `Nat` with explicit `% 256` wherever the C code truncates, `u16`
likewise with `% 65536`; transmitted frames are `List Nat` of byte
values; the byte stream handed back by the transport (`readSCS`) is an
explicit `List Nat` argument whose length plays the role of the returned
`Size`.  The definitions below keep the source's names and mirror its
control flow branch by branch.
-/

namespace SCS

/-- Instruction code `INST_PING` (INST.h). -/
def INST_PING : Nat := 0x01

/-- Instruction code `INST_READ` (INST.h). -/
def INST_READ : Nat := 0x02

/-- Instruction code `INST_WRITE` (INST.h). -/
def INST_WRITE : Nat := 0x03

/-- Instruction code `INST_SYNC_READ` (INST.h). -/
def INST_SYNC_READ : Nat := 0x82

/-- Instruction code `INST_SYNC_WRITE` (INST.h). -/
def INST_SYNC_WRITE : Nat := 0x83

/-- Maximum read payload, `SCSERVO_MAX_DATA_SIZE = 255 - 6` (INST.h). -/
def SCSERVO_MAX_DATA_SIZE : Nat := 249

/-- Bitwise complement of a `u8` value: the C code's `~x` stored back into
an `unsigned char` is `255 - x` for `x < 256`; the inner `% 256` models the
truncation of the accumulated sum to `u8` before complementing. -/
def bnot (x : Nat) : Nat := 255 - x % 256

theorem bnot_lt (x : Nat) : bnot x < 256 := by
  have : x % 256 < 256 := Nat.mod_lt _ (by omega)
  simp only [bnot]; omega

/-- Model of `SCS::Host2SCS` (SCS.cpp lines 71-80): split a `u16` into the
pair `(DataL, DataH)`.  With `End ≠ 0` the low-order output byte `DataL`
receives `Data >> 8` and `DataH` receives `Data & 0xff`; with `End = 0`
the roles are swapped. -/
def Host2SCS (End Data : Nat) : Nat × Nat :=
  let D := Data % 65536
  if End ≠ 0 then (D >>> 8, D % 256) else (D % 256, D >>> 8)

/-- Model of `SCS::SCS2Host` (SCS.cpp lines 91-104): combine the two `u8`
values `DataL`, `DataH` into a `u16`.  `Data <<= 8; Data |= other` on a
byte-valued operand is `· * 256 + ·`. -/
def SCS2Host (End DataL DataH : Nat) : Nat :=
  let L := DataL % 256
  let H := DataH % 256
  if End ≠ 0 then L * 256 + H else H * 256 + L

/-- Model of `SCS::writeBuf` (SCS.cpp lines 117-145): the exact byte
sequence handed to `writeSCS` for one simple instruction frame.
`nDat = some d` is a non-null data pointer with `nLen = d.length`;
`nDat = none` is the `NULL` branch (Ping / RegWriteAction), in which the
frame omits `MemAddr` yet the checksum still sums it, exactly as the
source does. -/
def writeBuf (ID MemAddr : Nat) (nDat : Option (List Nat)) (Fun : Nat) : List Nat :=
  match nDat with
  | some d =>
    let msgLen := (2 + d.length + 1) % 256
    [0xff, 0xff, ID, msgLen, Fun, MemAddr] ++ d
      ++ [bnot (ID + msgLen + Fun + MemAddr + d.sum)]
  | none =>
    let msgLen := 2
    [0xff, 0xff, ID, msgLen, Fun] ++ [bnot (ID + msgLen + Fun + MemAddr)]

/-- Body of the `syncWrite` per-servo loop (SCS.cpp lines 232-239): for
servo `i` it emits `ID[i]` followed by the `nLen` bytes at
`nDat + i*nLen`; consuming `nLen` bytes of the flat buffer per servo is
the same slicing. -/
def syncWriteBody (IDs nDat : List Nat) (nLen : Nat) : List Nat :=
  match IDs with
  | [] => []
  | id :: rest => (id :: nDat.take nLen) ++ syncWriteBody rest (nDat.drop nLen) nLen

/-- Model of `SCS::syncWrite` (SCS.cpp lines 215-242): the full byte
sequence transmitted, header `FF FF FE mesLen 0x83 MemAddr nLen`, then
per-servo ID+data, then the complemented sum. -/
def syncWrite (IDs : List Nat) (MemAddr nLen : Nat) (nDat : List Nat) : List Nat :=
  let mesLen := ((nLen + 1) * IDs.length + 4) % 256
  let body := syncWriteBody IDs nDat nLen
  [0xff, 0xff, 0xfe, mesLen, INST_SYNC_WRITE, MemAddr, nLen] ++ body
    ++ [bnot (0xfe + mesLen + INST_SYNC_WRITE + MemAddr + nLen + body.sum)]

/-- Model of the transmit half of `SCS::syncReadPacketTx` (SCS.cpp lines
443-463): header `FF FF FE (IDN+4) 0x82 MemAddr nLen`, the ID list, then
the complemented checksum. -/
def syncReadPacketTx (IDs : List Nat) (MemAddr nLen : Nat) : List Nat :=
  let checkSum := (4 + 0xfe) + IDs.length + MemAddr + nLen + INST_SYNC_READ + IDs.sum
  [0xff, 0xff, 0xfe, (IDs.length + 4) % 256, INST_SYNC_READ, MemAddr, nLen]
    ++ IDs ++ [bnot checkSum]

/-- Model of `SCS::Ack` (SCS.cpp lines 399-429).  `rx` is the byte list the
transport delivered for the `readSCS(bBuf, 6)` call (`Size = rx.length`).
Result: `(return value, whether readSCS was invoked, Error after the
call)`.  The source sets `Error = 0` first, skips the whole receive when
`ID == 0xfe` or `Level == 0`, and on a validated frame stores `bBuf[4]`
into `Error`. -/
def Ack (ID Level : Nat) (rx : List Nat) : Nat × Bool × Nat :=
  if ID ≠ 0xfe ∧ Level ≠ 0 then
    let b := fun i => rx.getD i 0
    if rx.length ≠ 6 then (0, true, 0)
    else if b 0 ≠ 0xff ∨ b 1 ≠ 0xff then (0, true, 0)
    else if b 2 ≠ ID then (0, true, 0)
    else if b 3 ≠ 2 then (0, true, 0)
    else if bnot (b 2 + b 3 + b 4) ≠ b 5 then (0, true, 0)
    else (1, true, b 4)
  else (1, false, 0)

/-- Validity of a 6-byte Ping response exactly as `SCS::Ping` checks it
(SCS.cpp lines 366-385): size, double `0xFF` header, address byte equal to
the pinged ID unless the ping was broadcast, length field `2`, and the
complemented sum of bytes 2..4 equal to byte 5. -/
def pingValid (ID : Nat) (rx : List Nat) : Bool :=
  rx.length = 6 ∧ rx.getD 0 0 = 0xff ∧ rx.getD 1 0 = 0xff
    ∧ (rx.getD 2 0 = ID ∨ ID = 0xfe) ∧ rx.getD 3 0 = 2
    ∧ bnot (rx.getD 2 0 + rx.getD 3 0 + rx.getD 4 0) = rx.getD 5 0

/-- Model of `SCS::Ping` (SCS.cpp lines 356-388).  Result:
`(return value, Error after the call)`.  `Error` is zeroed right after
transmission; on a validated response the source executes
`Error = bBuf[2]; return Error;` — the address byte, not the status
byte `bBuf[4]`. -/
def Ping (ID : Nat) (rx : List Nat) : Int × Nat :=
  let b := fun i => rx.getD i 0
  if rx.length ≠ 6 then (-1, 0)
  else if b 0 ≠ 0xff ∨ b 1 ≠ 0xff then (-1, 0)
  else if b 2 ≠ ID ∧ ID ≠ 0xfe then (-1, 0)
  else if b 3 ≠ 2 then (-1, 0)
  else if bnot (b 2 + b 3 + b 4) ≠ b 5 then (-1, 0)
  else (Int.ofNat (b 2), b 2)

/-- Model of `SCS::Read` (SCS.cpp lines 264-304).  `rx` is what the
transport delivered for `readSCS(bBuf, nLen+6)`; `oldError` is the `Error`
member before the call.  Result: `(return value, bytes copied to the
caller's buffer, Error after the call)`.  The source validates the
length-exceeds-max guard, the received size, the header and the checksum
— it never compares the response's address byte `bBuf[2]` with `ID` — and
touches `Error` only on the success path. -/
def Read (ID MemAddr nLen : Nat) (rx : List Nat) (oldError : Nat) :
    Nat × List Nat × Nat :=
  if nLen > SCSERVO_MAX_DATA_SIZE then (0, [], oldError)
  else if rx.length ≠ nLen + 6 then (0, [], oldError)
  else if rx.getD 0 0 ≠ 0xff ∨ rx.getD 1 0 ≠ 0xff then (0, [], oldError)
  else if bnot ((rx.drop 2).take (rx.length - 3)).sum ≠ rx.getD (rx.length - 1) 0 then
    (0, [], oldError)
  else (nLen, (rx.drop 5).take nLen, rx.getD 4 0)

/-- Model of `SCS::genWrite` (SCS.cpp lines 158-164): transmit the Write
frame, then `Ack`.  Result: `(transmitted bytes, Ack's result triple)`. -/
def genWrite (ID MemAddr : Nat) (nDat : List Nat) (Level : Nat) (rx : List Nat) :
    List Nat × Nat × Bool × Nat :=
  (writeBuf ID MemAddr (some nDat) INST_WRITE, Ack ID Level rx)

/-- Outcome of one `syncReadPacketRx` call: the extracted per-node data
bytes, the failure return `0`, or the marker for an out-of-bounds access
into the raw buffer (which the claims assert is unreachable). -/
inductive RxRes where
  | ok : List Nat → RxRes
  | fail : RxRes
  | oob : RxRes
deriving DecidableEq, Repr

/-- Whether an extraction outcome is the out-of-bounds marker. -/
def RxRes.isOob : RxRes → Bool
  | .oob => true
  | _ => false

/-- The inner header-hunting loop of `SCS::syncReadPacketRx` (SCS.cpp
lines 529-536): slide a 3-byte window `(b0,b1,b2)` forward until it shows
`FF FF X` with `X ≠ FF`, or the cursor reaches `len`.  Every byte is
fetched with `List.get?`; a failed fetch (impossible while `idx < len ≤
buf.length`) yields `none`, the out-of-bounds marker.  Returns the new
cursor and the window's last byte `bBuf[2]`.  `fuel` only bounds the
recursion; callers pass at least `len + 1`, enough for the at most
`len - idx` iterations the loop can make. -/
def headerScan (buf : List Nat) (len : Nat) :
    Nat → Nat → Nat → Nat → Nat → Option (Nat × Nat)
  | 0, idx, _, _, b2 => some (idx, b2)
  | fuel + 1, idx, _b0, b1, b2 =>
    if idx < len then
      match buf.get? idx with
      | none => none
      | some c =>
        if b1 = 0xff ∧ b2 = 0xff ∧ c ≠ 0xff then some (idx + 1, c)
        else headerScan buf len fuel (idx + 1) b1 b2 c
    else some (idx, b2)

/-- The data-copying `for` loop of `SCS::syncReadPacketRx` (SCS.cpp lines
553-560): read `n` payload bytes starting at `idx`, checking
`idx < len` before each access (the source returns `0` when the check
fails).  Outer `none` = out-of-bounds fetch; `some none` = the loop's
early `return 0`; otherwise the new cursor and the bytes read. -/
def readData (buf : List Nat) (len : Nat) : Nat → Nat → Option (Option (List Nat × Nat))
  | idx, 0 => some (some ([], idx))
  | idx, n + 1 =>
    if idx < len then
      match buf.get? idx with
      | none => none
      | some b =>
        match readData buf len (idx + 1) n with
        | none => none
        | some none => some none
        | some (some (ds, idx4)) => some (some (b :: ds, idx4))
    else some none

/-- The outer scanning loop of `SCS::syncReadPacketRx` (SCS.cpp lines
526-570), one recursive step per outer `while` iteration: while at least
one whole frame (`6 + pktLen` bytes) could still fit, hunt for a header,
reject wrong addresses and wrong length fields (cursor already advanced,
as the post-increments do), then read status, payload and checksum with
the source's bounds checks.  `fuel ≥ len + 1` is enough: every iteration
advances the cursor by at least one. -/
def rxLoop (buf : List Nat) (len pktLen ID : Nat) : Nat → Nat → RxRes
  | 0, _ => .fail
  | fuel + 1, idx =>
    if idx + 6 + pktLen ≤ len then
      match headerScan buf len (len + 1) idx 0 0 0 with
      | none => .oob
      | some (idx1, b2) =>
        if b2 ≠ ID then rxLoop buf len pktLen ID fuel idx1
        else if len ≤ idx1 then .fail
        else
          match buf.get? idx1 with
          | none => .oob
          | some lenByte =>
            if lenByte ≠ pktLen + 2 then rxLoop buf len pktLen ID fuel (idx1 + 1)
            else if len ≤ idx1 + 1 then .fail
            else
              match buf.get? (idx1 + 1) with
              | none => .oob
              | some err =>
                match readData buf len (idx1 + 2) pktLen with
                | none => .oob
                | some none => .fail
                | some (some (ds, idx4)) =>
                  if len ≤ idx4 then .fail
                  else
                    match buf.get? idx4 with
                    | none => .oob
                    | some chk =>
                      if bnot (ID + (pktLen + 2) + err + ds.sum) ≠ chk then .fail
                      else .ok ds
    else .fail

/-- Model of `SCS::syncReadPacketRx` (SCS.cpp lines 516-572).  `buf` is
the raw receive buffer's first `syncReadRxBuffLen` bytes, `pktLen` the
session's `syncReadRxPacketLen`.  The scan cursor `syncReadRxBuffIndex`
is a local variable of the source initialised to `0`, so every call
starts at the beginning of the raw buffer. -/
def syncReadPacketRx (buf : List Nat) (pktLen ID : Nat) : RxRes :=
  rxLoop buf buf.length pktLen ID (buf.length + 1) 0

/-- A raw buffer holding valid two-data-byte response frames for nodes
`1`, `2`, `3` back to back, each `FF FF id 04 00 d0 d1 chk` with the
complement checksum: the concrete three-node scenario of the spec. -/
def rxBufABC : List Nat :=
  [0xff, 0xff, 1, 4, 0, 0x11, 0x22, 199]
    ++ [0xff, 0xff, 2, 4, 0, 0x33, 0x44, 130]
    ++ [0xff, 0xff, 3, 4, 0, 0x55, 0x66, 61]

theorem headerScan_isSome (buf : List Nat) (len : Nat) (hlen : len ≤ buf.length) :
    ∀ (fuel idx b0 b1 b2 : Nat), (headerScan buf len fuel idx b0 b1 b2).isSome := by
  intro fuel
  induction fuel with
  | zero => intro idx b0 b1 b2; simp [headerScan]
  | succ n ih =>
    intro idx b0 b1 b2
    simp only [headerScan]
    split
    · rename_i hidx
      cases hg : buf.get? idx with
      | none => rw [List.get?_eq_none] at hg; omega
      | some c =>
        simp only []
        split
        · simp
        · exact ih (idx + 1) b1 b2 c
    · simp

theorem readData_isSome (buf : List Nat) (len : Nat) (hlen : len ≤ buf.length) :
    ∀ (n idx : Nat), (readData buf len idx n).isSome := by
  intro n
  induction n with
  | zero => intro idx; simp [readData]
  | succ m ih =>
    intro idx
    simp only [readData]
    split
    · rename_i hidx
      cases hg : buf.get? idx with
      | none => rw [List.get?_eq_none] at hg; omega
      | some b =>
        simp only []
        cases hr : readData buf len (idx + 1) m with
        | none => have := ih (idx + 1); rw [hr] at this; simp at this
        | some r => cases r <;> simp
    · simp

theorem rxLoop_ne_oob (buf : List Nat) (len pktLen ID : Nat) (hlen : len ≤ buf.length) :
    ∀ (fuel idx : Nat), rxLoop buf len pktLen ID fuel idx ≠ .oob := by
  intro fuel
  induction fuel with
  | zero => intro idx; simp [rxLoop]
  | succ n ih =>
    intro idx
    simp only [rxLoop]
    split
    · cases hh : headerScan buf len (len + 1) idx 0 0 0 with
      | none =>
        have := headerScan_isSome buf len hlen (len + 1) idx 0 0 0
        rw [hh] at this; simp at this
      | some r =>
        obtain ⟨idx1, b2⟩ := r
        simp only []
        split
        · exact ih idx1
        · split
          · simp
          · rename_i hb1
            cases hg1 : buf.get? idx1 with
            | none => rw [List.get?_eq_none] at hg1; omega
            | some lenByte =>
              simp only []
              split
              · exact ih (idx1 + 1)
              · split
                · simp
                · rename_i hb2
                  cases hg2 : buf.get? (idx1 + 1) with
                  | none => rw [List.get?_eq_none] at hg2; omega
                  | some err =>
                    simp only []
                    cases hr : readData buf len (idx1 + 2) pktLen with
                    | none =>
                      have := readData_isSome buf len hlen pktLen (idx1 + 2)
                      rw [hr] at this; simp at this
                    | some r2 =>
                      cases r2 with
                      | none => simp
                      | some p =>
                        obtain ⟨ds, idx4⟩ := p
                        simp only []
                        split
                        · simp
                        · rename_i hb4
                          cases hg4 : buf.get? idx4 with
                          | none => rw [List.get?_eq_none] at hg4; omega
                          | some chk => simp only []; split <;> simp
    · simp

/-- Claim C1, counterexample.  The claim states that after a successful
Extract for node C (= 3) on a buffer holding frames for A, B, C in order,
a subsequent Extract for node A (= 1) returns 0 because the search starts
at the session's cursor.  On the code, the cursor `syncReadRxBuffIndex`
is a local initialised to `0` on every call, so the later `Extract(A)`
succeeds and returns A's two data bytes, not 0. -/
theorem C1_extract_after_scan_counterexample :
    syncReadPacketRx rxBufABC 2 3 = .ok [0x55, 0x66]
      ∧ syncReadPacketRx rxBufABC 2 1 = .ok [0x11, 0x22] := by
  constructor <;> rfl

/-- Claim C1, amended: each Extract call scans the raw buffer from its
beginning (the source's scan cursor is a local variable reset to 0 on
entry), so extraction succeeds regardless of order — extracting C, then
A, then B from a buffer holding A, B, C all succeed. -/
theorem C1_extract_any_order :
    syncReadPacketRx rxBufABC 2 3 = .ok [0x55, 0x66]
      ∧ syncReadPacketRx rxBufABC 2 1 = .ok [0x11, 0x22]
      ∧ syncReadPacketRx rxBufABC 2 2 = .ok [0x33, 0x44] := by
  refine ⟨?_, ?_, ?_⟩ <;> rfl

/-- Claim C2, counterexample.  The claimed byte sequence
`FF FF 01 06 03 2A 01 02 C8` (length byte `0x06`, checksum over `0x06`)
is not what `writeBuf` emits for a 2-byte Write: the source computes
`msgLen = 2 + nLen + 1 = 5`. -/
theorem C2_write_frame_counterexample :
    (writeBuf 0x01 0x2A (some [0x01, 0x02]) INST_WRITE
        == [0xff, 0xff, 0x01, 0x06, 0x03, 0x2A, 0x01, 0x02, 0xC8]) = false := by
  rfl

/-- Claim C2, amended: a Write of the 2 data bytes `[0x01, 0x02]` to
register `0x2A` on node `0x01` emits `FF FF 01 05 03 2A 01 02 C9`, with
length byte `0x05 = nLen + 3` and checksum
`(~(0x01+0x05+0x03+0x2A+0x01+0x02)) & 0xFF = 0xC9`. -/
theorem C2_write_frame_bytes :
    writeBuf 0x01 0x2A (some [0x01, 0x02]) INST_WRITE
      = [0xff, 0xff, 0x01, 0x05, 0x03, 0x2A, 0x01, 0x02, 0xC9] := by
  rfl

set_option maxRecDepth 10000 in
/-- Claim C3, counterexample.  The length byte is a `u8`; for a Write
frame with a 253-byte payload the count of bytes from the instruction
byte through the checksum byte is `253 + 3 = 256`, while the emitted
length byte is `256 % 256 = 0`: the invariant fails for that payload. -/
theorem C3_length_byte_counterexample :
    (writeBuf 1 0 (some (List.replicate 253 7)) INST_WRITE).getD 3 0 = 0
      ∧ (writeBuf 1 0 (some (List.replicate 253 7)) INST_WRITE).length - 4 = 256 := by
  constructor <;> rfl

theorem syncWriteBody_length (nLen : Nat) :
    ∀ (IDs nDat : List Nat), nDat.length = IDs.length * nLen →
      (syncWriteBody IDs nDat nLen).length = (nLen + 1) * IDs.length := by
  intro IDs
  induction IDs with
  | nil => intro nDat _; simp [syncWriteBody]
  | cons id rest ih =>
    intro nDat h
    simp only [List.length_cons] at h
    have hge : nLen ≤ nDat.length := by
      have : rest.length * nLen + nLen = (rest.length + 1) * nLen := by ring
      omega
    have hdrop : (nDat.drop nLen).length = rest.length * nLen := by
      simp only [List.length_drop]
      have : rest.length * nLen + nLen = (rest.length + 1) * nLen := by ring
      omega
    simp only [syncWriteBody, List.length_append, List.length_cons, List.length_take,
      ih (nDat.drop nLen) hdrop]
    have : min nLen nDat.length = nLen := Nat.min_eq_left hge
    rw [this]; ring

/-- Claim C3, amended: for every frame the codec emits, the length byte
equals the count of bytes from the instruction byte through the checksum
byte reduced modulo 256 (the byte is a `u8`); it equals the count itself
exactly when that count fits in one byte.  For the multi-node sync write
the flat data buffer carries `nLen` bytes per listed node. -/
theorem C3_length_byte_mod (ID MemAddr Fun nLen : Nat) (d IDs nDat : List Nat)
    (h : nDat.length = IDs.length * nLen) :
    (writeBuf ID MemAddr (some d) Fun).getD 3 0
        = ((writeBuf ID MemAddr (some d) Fun).length - 4) % 256
      ∧ (writeBuf ID MemAddr none Fun).getD 3 0
          = ((writeBuf ID MemAddr none Fun).length - 4) % 256
      ∧ (syncWrite IDs MemAddr nLen nDat).getD 3 0
          = ((syncWrite IDs MemAddr nLen nDat).length - 4) % 256
      ∧ (syncReadPacketTx IDs MemAddr nLen).getD 3 0
          = ((syncReadPacketTx IDs MemAddr nLen).length - 4) % 256 := by
  refine ⟨?_, by rfl, ?_, ?_⟩
  · simp only [writeBuf, List.getD, List.append_assoc, List.cons_append,
      List.length_append, List.length_cons, List.nil_append]
    simp
    omega
  · simp only [syncWrite, List.getD, List.cons_append, List.length_append,
      List.length_cons, List.nil_append]
    rw [syncWriteBody_length nLen IDs nDat h]
    simp
  · simp only [syncReadPacketTx, List.getD, List.cons_append, List.length_append,
      List.length_cons, List.nil_append]
    simp

/-- Claim C3's amended theorem evaluated at a concrete input: one node
(`ID 9`) with two data bytes per node. -/
theorem C3_length_byte_mod_witness :
    ([3, 4] : List Nat).length = ([9] : List Nat).length * 2
      ∧ (writeBuf 1 5 (some [1, 2]) 3).getD 3 0
          = ((writeBuf 1 5 (some [1, 2]) 3).length - 4) % 256 :=
  ⟨by rfl, (C3_length_byte_mod 1 5 3 2 [1, 2] [9] [3, 4] (by rfl)).1⟩

/-- Claim C4: for every raw-buffer content and recorded length, Extract
never touches the raw buffer at or beyond the recorded length (every
access in the model is an optional fetch and the out-of-bounds marker is
never produced), and on a buffer truncated one byte into a node's
payload the call returns 0 (`fail`). -/
theorem C4_no_out_of_bounds :
    (∀ (buf : List Nat) (pktLen ID : Nat), (syncReadPacketRx buf pktLen ID).isOob = false)
      ∧ syncReadPacketRx [0, 0, 0, 0xff, 0xff, 1, 4, 0, 9] 2 1 = .fail := by
  constructor
  · intro buf pktLen ID
    have h := rxLoop_ne_oob buf buf.length pktLen ID (Nat.le_refl _) (buf.length + 1) 0
    unfold syncReadPacketRx
    cases hr : rxLoop buf buf.length pktLen ID (buf.length + 1) 0 <;>
      simp_all [RxRes.isOob]
  · rfl

/-- Claim C5, counterexample.  `Read` requested of node 1 accepts a
checksum-valid response frame whose address byte is 5: it returns 2
(success with both data bytes) even though the frame is not from the
requested node — the source never compares `bBuf[2]` with `ID`. -/
theorem C5_read_address_counterexample :
    Read 1 0x38 2 [0xff, 0xff, 5, 4, 0, 0xAB, 0xCD, 126] 0 = (2, [0xAB, 0xCD], 0)
      ∧ [0xff, 0xff, 5, 4, 0, 0xAB, 0xCD, 126].getD 2 0 ≠ 1 := by
  constructor <;> first | rfl | simp

/-- Claim C5, amended: the 6-byte acknowledgement path (`Ack`) and `Ping`
reject a response whose address byte differs from the requested node
(broadcast exempting the receive altogether for `Ack` and the comparison
for `Ping`), but `Read` performs no address check at all — its outcome is
the same whatever node ID the request named. -/
theorem C5_address_check (ID Level : Nat) (rx : List Nat)
    (hb : ID ≠ 0xfe) (hl : Level ≠ 0) (hm : rx.getD 2 0 ≠ ID) :
    (Ack ID Level rx).1 = 0
      ∧ (Ping ID rx).1 = -1
      ∧ ∀ (ID2 MemAddr nLen old : Nat),
          Read ID MemAddr nLen rx old = Read ID2 MemAddr nLen rx old := by
  refine ⟨?_, ?_, fun ID2 MemAddr nLen old => rfl⟩
  · simp only [Ack, if_pos (And.intro hb hl)]
    split_ifs <;> simp_all
  · simp only [Ping]
    split_ifs <;> simp_all

/-- Claim C5's amended theorem applied at a concrete input: node 1, level
1, and the frame addressed to node 5. -/
theorem C5_address_check_witness :
    (1 : Nat) ≠ 0xfe ∧ (1 : Nat) ≠ 0
      ∧ ([0xff, 0xff, 5, 4, 0, 0xAB, 0xCD, 126] : List Nat).getD 2 0 ≠ 1
      ∧ (Ack 1 1 [0xff, 0xff, 5, 4, 0, 0xAB, 0xCD, 126]).1 = 0 :=
  ⟨by simp, by simp, by simp,
    (C5_address_check 1 1 [0xff, 0xff, 5, 4, 0, 0xAB, 0xCD, 126]
      (by simp) (by simp) (by simp)).1⟩

/-- Claim C6, counterexample.  A fully valid ping response from node 1
carrying status byte `0x20` makes `Ping` return 1 — the frame's address
byte `bBuf[2]` (`Error = bBuf[2]; return Error;`) — not the status byte
`0x20` the claim promises. -/
theorem C6_ping_status_counterexample :
    pingValid 1 [0xff, 0xff, 1, 2, 0x20, 0xDC] = true
      ∧ Ping 1 [0xff, 0xff, 1, 2, 0x20, 0xDC] = (1, 1)
      ∧ (Ping 1 [0xff, 0xff, 1, 2, 0x20, 0xDC]).1 ≠ 0x20 := by
  refine ⟨by rfl, by rfl, by decide⟩

/-- Claim C6, amended: upon a 6-byte response with correct header,
address (or broadcast ping), length field 2 and checksum, `Ping` returns
the response's address byte (which it also stores in `Error`); on a
size, framing or checksum mismatch it returns -1. -/
theorem C6_ping_returns_address_byte (ID : Nat) (rx : List Nat) :
    Ping ID rx
      = if pingValid ID rx then (Int.ofNat (rx.getD 2 0), rx.getD 2 0) else (-1, 0) := by
  simp only [Ping, pingValid]
  split_ifs <;> simp_all

/-- Claim C7: `Read` either returns the full requested count with exactly
that many data bytes, or returns 0; and any request longer than the
249-byte maximum payload fails outright. -/
theorem C7_read_all_or_nothing (ID MemAddr nLen : Nat) (rx : List Nat) (old : Nat) :
    ((Read ID MemAddr nLen rx old).1 = 0
        ∨ ((Read ID MemAddr nLen rx old).1 = nLen
            ∧ (Read ID MemAddr nLen rx old).2.1.length = nLen))
      ∧ (nLen > SCSERVO_MAX_DATA_SIZE → (Read ID MemAddr nLen rx old).1 = 0) := by
  simp only [Read]
  split_ifs with h1 h2 h3 h4 <;> simp_all

/-- Claim C8: a write-class operation sent to the broadcast address
`0xFE` performs no receive at all and reports success, for every register
address, payload and response level — `Ack` short-circuits on
`ID != 0xfe && Level`. -/
theorem C8_broadcast_write_no_wait (MemAddr : Nat) (nDat : List Nat)
    (Level : Nat) (rx : List Nat) :
    (genWrite 0xfe MemAddr nDat Level rx).2 = (1, false, 0) := by
  simp [genWrite, Ack]

/-- Claim C9, counterexample.  A `Read` that fails (empty response) hands
back whatever `Error` held before the call — 7 stays 7 and 9 stays 9 —
so after that operation `Error` holds a stale value from an earlier call,
not a value written during this one. -/
theorem C9_stale_error_counterexample :
    (Read 1 0 2 [] 7).1 = 0 ∧ (Read 1 0 2 [] 7).2.2 = 7
      ∧ (Read 1 0 2 [] 9).2.2 = 9 := by
  refine ⟨by rfl, by rfl, by rfl⟩

/-- Claim C9, amended: `Ack` and `Ping` overwrite the cached status on
every call (`Ack` with 0 or the frame's status byte, `Ping` with 0 or
the frame's address byte), but `Read` writes `Error` only on the success
path: a failed `Read` leaves the previous value in place. -/
theorem C9_error_freshness (ID Level MemAddr nLen : Nat) (rx : List Nat) (old : Nat) :
    ((Ack ID Level rx).2.2 = 0 ∨ (Ack ID Level rx).2.2 = rx.getD 4 0)
      ∧ ((Ping ID rx).2 = 0 ∨ (Ping ID rx).2 = rx.getD 2 0)
      ∧ (((Read ID MemAddr nLen rx old).1 = 0 ∧ (Read ID MemAddr nLen rx old).2.2 = old)
          ∨ (Read ID MemAddr nLen rx old).2.2 = rx.getD 4 0) := by
  refine ⟨?_, ?_, ?_⟩
  · simp only [Ack]; split_ifs <;> simp
  · simp only [Ping]; split_ifs <;> simp
  · simp only [Read]; split_ifs <;> simp

/-- Claim C10: splitting a 16-bit value with `Host2SCS` and recombining
the two bytes with `SCS2Host` gives the value back, under either
endianness setting. -/
theorem C10_endianness_roundtrip (End Data : Nat) (h : Data < 65536) :
    SCS2Host End (Host2SCS End Data).1 (Host2SCS End Data).2 = Data := by
  have hD : Data % 65536 = Data := Nat.mod_eq_of_lt h
  simp only [Host2SCS, SCS2Host, hD, Nat.shiftRight_eq_div_pow]
  have hdiv : Data / 2 ^ 8 < 256 := by omega
  split_ifs <;> simp only [] <;> omega

/-- Claim C10's round-trip applied at the concrete 16-bit value `0x1234`
under both endianness settings. -/
theorem C10_endianness_roundtrip_witness :
    (0x1234 : Nat) < 65536
      ∧ SCS2Host 0 (Host2SCS 0 0x1234).1 (Host2SCS 0 0x1234).2 = 0x1234
      ∧ SCS2Host 1 (Host2SCS 1 0x1234).1 (Host2SCS 1 0x1234).2 = 0x1234 :=
  ⟨by simp, C10_endianness_roundtrip 0 0x1234 (by simp),
    C10_endianness_roundtrip 1 0x1234 (by simp)⟩

end SCS
